import Mathlib

/-!
# Verification of the wasmer code-publishing subsystem

Shallow embedding of the code-publishing subsystem of the wasmer repository:

* `src/lib/engine-jit/src/code_memory.rs` — `CodeMemory`: layout computation
  (`allocate`), byte copying (`copy_function`), sizing
  (`function_allocation_size`), protection flip (`publish`), `round_up`;
* `src/lib/engine-universal/src/artifact.rs` — `UniversalArtifact`:
  `register_frame_info` (guarded lazy frame-info registration) and the link
  step of `from_build`;
* `src/lib/types/src/serialize.rs` — `SerializableModule::serialize` /
  `deserialize` over the rkyv codec.

Machine integers (`usize`) are modelled as `Nat`: the quantities involved are
sizes and offsets of actually-materialised in-memory buffers, so `usize`
addition cannot wrap (and would panic in a debug build before producing a
wrong layout).  The one explicit narrowing cast in the sources,
`func_len as u32` in `CodeMemory::copy_function`, is modelled faithfully as
reduction modulo `2 ^ 32`.
-/

namespace Wasmer

/-! ## Data model (code_memory.rs and its input types)

`FunctionBody` and `CompiledFunctionUnwindInfo` are defined in the
`wasmer_compiler` crate, which is not among the provided sources; they are
modelled from the spec (§3: "raw machine-code bytes plus an optional tagged
unwind-info payload ... at least one variant requires the info to be stored
contiguously after the code bytes") and from how `code_memory.rs` pattern
matches on them (`Some(CompiledFunctionUnwindInfo::WindowsX64(info))` versus
the catch-all `_`).  Bytes are modelled as `Nat` values. -/

/-- Modelled from the spec: tagged unwind-info payload.  `windowsX64` is the
variant that `code_memory.rs` stores inline after the code bytes (it carries
the unwind table's bytes); `dwarf` stands for every other variant, which
`function_allocation_size` treats with the catch-all `_` arm. -/
inductive CompiledFunctionUnwindInfo where
  | windowsX64 (info : List Nat)
  | dwarf
deriving DecidableEq, Repr

/-- Modelled from the spec: a function body record — raw machine-code bytes
plus an optional tagged unwind-info payload. -/
structure FunctionBody where
  body : List Nat
  unwind_info : Option CompiledFunctionUnwindInfo
deriving DecidableEq, Repr

/-- Modelled from the spec: a custom section's raw bytes.  The executable /
data protection split appears in which argument list the section is passed to
`allocate`, exactly as in `code_memory.rs`. -/
structure CustomSection where
  bytes : List Nat
deriving DecidableEq, Repr

/-- `ARCH_FUNCTION_ALIGNMENT` from code_memory.rs. -/
def ARCH_FUNCTION_ALIGNMENT : Nat := 16

/-- `DATA_SECTION_ALIGNMENT` from code_memory.rs. -/
def DATA_SECTION_ALIGNMENT : Nat := 64

/-- `round_up` from code_memory.rs:
`(size + (multiple - 1)) & !(multiple - 1)` on `usize`, with `multiple` a
power of two (guarded by a `debug_assert!`).  For a power of two `m`,
`x & !(m - 1)` clears the low bits of `x`, i.e. subtracts `x % m`; that is the
form used here, which is total on `Nat`. -/
def round_up (size multiple : Nat) : Nat :=
  (size + (multiple - 1)) - (size + (multiple - 1)) % multiple

/-- `CodeMemory::function_allocation_size`.  `(func.body.len() + 3) & !3`
is rendered, as in `round_up`, by subtracting the `% 4` remainder. -/
def function_allocation_size (func : FunctionBody) : Nat :=
  match func.unwind_info with
  | some (CompiledFunctionUnwindInfo.windowsX64 info) =>
      ((func.body.length + 3) - (func.body.length + 3) % 4) + info.length
  | _ => func.body.length

/-! ## `CodeMemory::allocate` — layout and copy

`allocate` (code_memory.rs lines 39–137) computes `total_len` by the two
nested folds, maps at least that many zero-initialised read-write bytes, then
walks the mapping once: each function gets the next
`round_up(function_allocation_size, ARCH_FUNCTION_ALIGNMENT)` bytes (filled by
`copy_function`), each executable section the next
`round_up(len, ARCH_FUNCTION_ALIGNMENT)` bytes, the running total of which
becomes `start_of_nonexecutable_pages`; if any data sections exist the walk
skips to the next page boundary and gives each data section the next
`round_up(len, DATA_SECTION_ALIGNMENT)` bytes.

The model below renders the destructive buffer walk functionally: the region
is the concatenation, in walk order, of one chunk per item (each chunk exactly
the bytes the loop's `split_at_mut` hands to that item, trailing bytes still
zero from the fresh mapping), the page padding, and the data chunks.
`page_size` (`region::page::size()`, a host constant) and `base` (the address
`Mmap::with_at_least` returned, to which the registered function pointers
refer) are parameters. -/

/-- `total_len` exactly as computed at code_memory.rs lines 62–74. -/
def allocate_total_len (page_size : Nat) (functions : List FunctionBody)
    (executable_sections data_sections : List CustomSection) : Nat :=
  round_up
    (functions.foldl
      (fun acc func =>
        round_up (acc + function_allocation_size func) ARCH_FUNCTION_ALIGNMENT)
      0
     + executable_sections.foldl
        (fun acc exec => round_up (acc + exec.bytes.length) ARCH_FUNCTION_ALIGNMENT)
        0)
    page_size
  + data_sections.foldl
      (fun acc data => round_up (acc + data.bytes.length) DATA_SECTION_ALIGNMENT)
      0

/-- The running `bytes` counter of the copy loop after all functions and
executable sections: the value stored into `self.start_of_nonexecutable_pages`
(code_memory.rs line 111). -/
def start_of_nonexecutable_pages (functions : List FunctionBody)
    (executable_sections : List CustomSection) : Nat :=
  executable_sections.foldl
    (fun bytes exec => bytes + round_up exec.bytes.length ARCH_FUNCTION_ALIGNMENT)
    (functions.foldl
      (fun bytes func =>
        bytes + round_up (function_allocation_size func) ARCH_FUNCTION_ALIGNMENT)
      0)

/-- Start offsets handed out by the sequential buffer walk: the first item of
size `s` starts at `start` and the walk advances by `round_up s align`. -/
def seg_offsets (align : Nat) : List Nat → Nat → List Nat
  | [], _ => []
  | s :: rest, start => start :: seg_offsets align rest (start + round_up s align)

/-- Offsets of the function bodies (the walk starts at offset 0). -/
def func_offsets (functions : List FunctionBody) : List Nat :=
  seg_offsets ARCH_FUNCTION_ALIGNMENT
    (functions.map function_allocation_size) 0

/-- Offsets of the executable sections (the walk continues where the function
bodies ended). -/
def exec_offsets (functions : List FunctionBody)
    (executable_sections : List CustomSection) : List Nat :=
  seg_offsets ARCH_FUNCTION_ALIGNMENT
    (executable_sections.map (fun s => s.bytes.length))
    (functions.foldl
      (fun bytes func =>
        bytes + round_up (function_allocation_size func) ARCH_FUNCTION_ALIGNMENT)
      0)

/-- Offsets of the data sections: the walk skips from
`start_of_nonexecutable_pages` to the next page boundary first
(code_memory.rs lines 113–117). -/
def data_offsets (page_size : Nat) (functions : List FunctionBody)
    (executable_sections data_sections : List CustomSection) : List Nat :=
  seg_offsets DATA_SECTION_ALIGNMENT
    (data_sections.map (fun s => s.bytes.length))
    (round_up (start_of_nonexecutable_pages functions executable_sections) page_size)

/-- The unwind-table bytes `copy_function` writes after the code bytes: for
the `WindowsX64` variant, zero padding up to the next 4-byte boundary
(`unwind_start = (func_len + 3) & !3`; the padding bytes are left at their
mapped value 0) followed by the unwind table itself; nothing for the other
variants. -/
def unwind_tail (func : FunctionBody) : List Nat :=
  match func.unwind_info with
  | some (CompiledFunctionUnwindInfo.windowsX64 info) =>
      List.replicate (((func.body.length + 3) - (func.body.length + 3) % 4)
        - func.body.length) 0 ++ info
  | _ => []

/-- The chunk of the region owned by one function: the
`round_up(function_allocation_size, ARCH_FUNCTION_ALIGNMENT)` bytes split off
by the loop, as `copy_function` leaves them — body bytes, then the unwind
tail, then untouched zeros up to the alignment padding. -/
def funcChunk (func : FunctionBody) : List Nat :=
  func.body ++ unwind_tail func
  ++ List.replicate
      (round_up (function_allocation_size func) ARCH_FUNCTION_ALIGNMENT
        - function_allocation_size func) 0

/-- The chunk owned by one executable section: its bytes, then untouched
zeros up to the alignment padding (code_memory.rs lines 100–109). -/
def execChunk (section_ : CustomSection) : List Nat :=
  section_.bytes
  ++ List.replicate
      (round_up section_.bytes.length ARCH_FUNCTION_ALIGNMENT
        - section_.bytes.length) 0

/-- The chunk owned by one data section (code_memory.rs lines 119–129). -/
def dataChunk (section_ : CustomSection) : List Nat :=
  section_.bytes
  ++ List.replicate
      (round_up section_.bytes.length DATA_SECTION_ALIGNMENT
        - section_.bytes.length) 0

/-- The contents of the mapped region after `allocate` returns, over exactly
`total_len` bytes (`Mmap::with_at_least` may map more; the surplus is never
assigned to any item).  When there are no data sections the walk stops at
`start_of_nonexecutable_pages` and the rest of the region keeps its mapped
zeros; otherwise the page padding is followed by the data chunks. -/
def allocate_region (page_size : Nat) (functions : List FunctionBody)
    (executable_sections data_sections : List CustomSection) : List Nat :=
  (functions.map funcChunk).flatten ++ (executable_sections.map execChunk).flatten
  ++ (if data_sections.isEmpty then
        List.replicate
          (allocate_total_len page_size functions executable_sections data_sections
            - start_of_nonexecutable_pages functions executable_sections) 0
      else
        List.replicate
          (round_up (start_of_nonexecutable_pages functions executable_sections)
              page_size
            - start_of_nonexecutable_pages functions executable_sections) 0
        ++ (data_sections.map dataChunk).flatten)

/-! ## The unwind registry during `copy_function` -/

/-- One entry of the JIT `UnwindRegistry`, as registered by
`CodeMemory::copy_function` (code_memory.rs lines 200–210):
`registry.register(vmfunc.as_ptr() as usize, 0, func_len as u32, info)`.
The `as u32` cast truncates the code length to 32 bits. -/
structure UnwindEntry where
  base_address : Nat
  func_start : Nat
  func_len : Nat
  info : CompiledFunctionUnwindInfo
deriving DecidableEq, Repr

/-- The registry entries appended while the copy loop walks the function list
starting at offset `start` inside a mapping based at address `base`: one
`register` call per function whose `unwind_info` is `Some`, in walk order. -/
def func_entries (base : Nat) : List FunctionBody → Nat → List UnwindEntry
  | [], _ => []
  | func :: rest, start =>
    (match func.unwind_info with
     | some info => [⟨base + start, 0, func.body.length % 2 ^ 32, info⟩]
     | none => [])
    ++ func_entries base rest
        (start + round_up (function_allocation_size func) ARCH_FUNCTION_ALIGNMENT)

/-- The unwind registry contents after a successful `allocate` (every
`register` call accepted; a rejected call panics instead — see
`copy_function_register`). -/
def allocate_registry (base : Nat) (functions : List FunctionBody) :
    List UnwindEntry :=
  func_entries base functions 0

/-! ## `CodeMemory::publish` -/

/-- Protection of a mapped byte.  A fresh `Mmap` is read-write; `publish`
flips the executable partition to read-execute via `region::protect`. -/
inductive Protection where
  | readWrite
  | readExecute
deriving DecidableEq, Repr

/-- The fields of `CodeMemory` that `publish` reads or writes: the mapping's
length, `start_of_nonexecutable_pages`, and the per-byte protection of the
mapping (`prot i` for offsets `i < mmap_len`). -/
structure CodeMemory where
  mmap_len : Nat
  start_of_nonexecutable_pages : Nat
  prot : Nat → Protection

/-- `CodeMemory::publish` (code_memory.rs lines 145–158): early return when
the mapping is empty or `start_of_nonexecutable_pages` is zero; then
`assert!(self.mmap.len() >= self.start_of_nonexecutable_pages)` (`none`
models the panic on a state violating it, which `allocate` never produces);
then `region::protect(base, start_of_nonexecutable_pages, READ_EXECUTE)`,
modelled as making exactly the bytes of `[0, start_of_nonexecutable_pages)`
read-execute. -/
def CodeMemory.publish (cm : CodeMemory) : Option CodeMemory :=
  if cm.mmap_len = 0 ∨ cm.start_of_nonexecutable_pages = 0 then
    some cm
  else if cm.start_of_nonexecutable_pages ≤ cm.mmap_len then
    some { cm with
      prot := fun i =>
        if i < cm.start_of_nonexecutable_pages then Protection.readExecute
        else cm.prot i }
  else
    none

/-! ## `copy_function`'s handling of a failed unwind registration -/

/-- How a call that may return normally, return an error to its caller, or
panic, finishes. -/
inductive RegOutcome where
  | ok (entry : Option UnwindEntry)
  | err (e : String)
  | panicked (msg : String)
deriving DecidableEq, Repr

/-- The unwind-registration step of `CodeMemory::copy_function`
(code_memory.rs lines 200–210), with the `UnwindRegistry::register` call (its
body is outside the provided sources; per the spec it can fail) supplied as
the `register` argument.  The source applies
`.expect("failed to register unwind information")` to `register`'s result: an
`Err` becomes a panic, not a value returned to the caller. -/
def copy_function_register (register : UnwindEntry → Except String Unit)
    (base start : Nat) (func : FunctionBody) : RegOutcome :=
  match func.unwind_info with
  | some info =>
    match register ⟨base + start, 0, func.body.length % 2 ^ 32, info⟩ with
    | Except.ok _ => RegOutcome.ok (some ⟨base + start, 0, func.body.length % 2 ^ 32, info⟩)
    | Except.error _ => RegOutcome.panicked "failed to register unwind information"
  | none => RegOutcome.ok none

/-! ## `UniversalArtifact::register_frame_info` (artifact.rs lines 228–250) -/

/-- Modelled from the spec: the record `wasmer_engine::register_frame_info`
(whose body is outside the provided sources) stores in the guarded slot — per
§4.3 "a mapping from finalized function address+length pairs to frame-info
records".  The mapping is represented by its address+length pairs. -/
structure GlobalFrameInfoRegistration where
  extents : List (Nat × Nat)
deriving DecidableEq, Repr

/-- Modelled from the spec: `wasmer_engine::register_frame_info` builds the
mapping from the finalized function extents and returns the registration to
store (an `Option`, as required by the assignment into the
`Mutex<Option<GlobalFrameInfoRegistration>>` slot at artifact.rs line 245). -/
def register_frame_info_service (extents : List (Nat × Nat)) :
    Option GlobalFrameInfoRegistration :=
  some ⟨extents⟩

/-- The state of a `UniversalArtifact` that `register_frame_info` touches:
the finalized function pointers (`finished_functions`), their lengths
(`finished_function_lengths`), and the guarded lazy slot
(`frame_info_registration`).  `computations` is a ghost counter of how many
times the slot's content has been recomputed (the work the guard is there to
avoid repeating). -/
structure UniversalArtifact where
  finished_functions : List Nat
  finished_function_lengths : List Nat
  frame_info_registration : Option GlobalFrameInfoRegistration
  computations : Nat
deriving DecidableEq, Repr

/-- `UniversalArtifact::register_frame_info` (artifact.rs lines 228–250):
lock the slot; if it is already `Some`, return; otherwise zip the finished
function pointers with their lengths into `FunctionExtent`s and store the
result of `register_frame_info` in the slot. -/
def UniversalArtifact.register_frame_info (a : UniversalArtifact) :
    UniversalArtifact :=
  if a.frame_info_registration.isSome then
    a
  else
    let finished_function_extents :=
      a.finished_functions.zip a.finished_function_lengths
    { a with
      frame_info_registration := register_frame_info_service finished_function_extents
      computations := a.computations + 1 }

/-! ## The link step (spec §4.2)

`link_module`'s body (engine-universal's link.rs) is not among the provided
sources; only its call site (artifact.rs lines 120–128) is.  The definitions
of this section are therefore modelled from the spec. -/

/-- Modelled from the spec: a relocation target — "another function, another
section, or a fixed runtime call stub (libcall trampoline)". -/
inductive RelocationTarget where
  | localFunc (index : Nat)
  | customSection (index : Nat)
  | libcallTrampoline (index : Nat)
deriving DecidableEq, Repr

/-- Modelled from the spec: a relocation record `(offset, target, kind)`.
The relocation kinds are left abstract (an identifier); each kind's write
width and encoding are supplied by a `RelocScheme`. -/
structure Relocation where
  offset : Nat
  target : RelocationTarget
  kind : Nat
deriving DecidableEq, Repr

/-- Modelled from the spec: `LinkError` — "an out-of-bounds offset or
unresolved target is a LinkError, not a crash". -/
inductive LinkError where
  | outOfBounds (offset width len : Nat)
  | unresolvedTarget (target : RelocationTarget)
deriving DecidableEq, Repr

/-- Modelled from the spec: the per-kind write width and encoding ("writes
the required displacement/absolute value ... using the encoding dictated by
`kind`").  `enc kind addr offset` is the byte string written; `henc` records
that it is exactly `width kind` bytes wide. -/
structure RelocScheme where
  width : Nat → Nat
  enc : Nat → Nat → Nat → List Nat
  henc : ∀ k a o, (enc k a o).length = width k

/-- Modelled from the spec: the final-address environment the linker resolves
targets against — function pointers, section pointers, and the libcall
trampoline region with its per-trampoline length bookkeeping. -/
structure LinkEnv where
  functions : List Nat
  sections : List Nat
  libcall_trampolines : Nat
  libcall_count : Nat
  libcall_trampoline_len : Nat
deriving DecidableEq, Repr

/-- Modelled from the spec: resolve a relocation target to a final address —
"a function's final pointer, a section's final pointer, or the address of the
fixed libcall trampoline region, offset by the trampoline's own length
bookkeeping"; an undefined entity does not resolve. -/
def LinkEnv.resolve (env : LinkEnv) : RelocationTarget → Option Nat
  | RelocationTarget.localFunc i => env.functions[i]?
  | RelocationTarget.customSection i => env.sections[i]?
  | RelocationTarget.libcallTrampoline i =>
    if i < env.libcall_count then
      some (env.libcall_trampolines + i * env.libcall_trampoline_len)
    else
      none

/-- Overwrite `buf[offset .. offset + v.length)` with `v`. -/
def write_bytes (buf : List Nat) (offset : Nat) (v : List Nat) : List Nat :=
  buf.take offset ++ v ++ buf.drop (offset + v.length)

/-- Modelled from the spec: apply one relocation to the bytes of its owning
body/section — "Must validate that `offset` plus the write width stays within
the owning body/section's bounds and that `target` resolves to a defined
entity"; only a validated relocation writes, and it writes only the `width`
bytes at `offset`.  On error the owning bytes are returned unchanged next to
the `LinkError`. -/
def apply_relocation (s : RelocScheme) (env : LinkEnv) (bytes : List Nat)
    (r : Relocation) : Except LinkError (List Nat) :=
  match env.resolve r.target with
  | none => Except.error (LinkError.unresolvedTarget r.target)
  | some addr =>
    if r.offset + s.width r.kind ≤ bytes.length then
      Except.ok (write_bytes bytes r.offset (s.enc r.kind addr r.offset))
    else
      Except.error (LinkError.outOfBounds r.offset (s.width r.kind) bytes.length)

/-- Modelled from the spec: apply an owning body/section's relocation list in
order, stopping at the first `LinkError`. -/
def link_relocations (s : RelocScheme) (env : LinkEnv) (bytes : List Nat) :
    List Relocation → Except LinkError (List Nat)
  | [] => Except.ok bytes
  | r :: rest =>
    match apply_relocation s env bytes r with
    | Except.ok b => link_relocations s env b rest
    | Except.error e => Except.error e

/-- Whether a relocation is malformed for a buffer of length `len`: its write
would leave the owning buffer, or its target does not resolve. -/
def bad_relocation (s : RelocScheme) (env : LinkEnv) (len : Nat)
    (r : Relocation) : Prop :=
  len < r.offset + s.width r.kind ∨ env.resolve r.target = none

/-- `CompileError`, the error type of `UniversalArtifact::from_build`'s
result; artifact.rs visibly constructs its `Validate` variant (line 175),
while `engine_inner.allocate`'s errors reach it through `?` (line 118). -/
inductive CompileError where
  | validate (msg : String)
deriving DecidableEq, Repr

/-- The link step of `UniversalArtifact::from_build` (artifact.rs lines
120–128): `link_module(...)` is invoked as a bare statement — no `?`, no
`map_err`, its outcome bound to nothing — so whatever the linker produced,
this step contributes `Ok` to `from_build`'s result.  In particular a
`LinkError` from the link step never becomes a `CompileError` of the
build. -/
def from_build_link_step (linked : Except LinkError (List Nat)) :
    Except CompileError Unit :=
  match linked with
  | Except.ok _ => Except.ok ()
  | Except.error _ => Except.ok ()

/-! ## `SerializableModule` (serialize.rs)

rkyv is an external crate; it is modelled as an abstract codec
(`archive_bytes` for `AllocSerializer::serialize_value ∘ into_inner`,
`archived_root` for `rkyv::util::archived_root` followed by
`deserialize_from_archive`, `none` standing for the `CorruptedBinary`
failure).  What remains of serialize.rs is then straight-line code: whether
anything is appended to or stripped from the archive bytes. -/

/-- The field layout of `SerializableModule` (serialize.rs lines 36–45), with
the component types (`SerializableCompilation`, `CompileModuleInfo`,
`OwnedDataInitializer`) abstract. -/
structure SerializableModule (κ ι δ : Type) where
  compilation : κ
  compile_info : ι
  data_initializers : List δ
  cpu_features : Nat
deriving DecidableEq, Repr

/-- `DeserializeError` (the sub-kinds named in serialize.rs). -/
inductive DeserializeError where
  | incompatible (msg : String)
  | corruptedBinary (msg : String)
deriving DecidableEq, Repr

/-- The rkyv codec, abstracted. -/
structure RkyvCodec (κ ι δ : Type) where
  archive_bytes : SerializableModule κ ι δ → List Nat
  archived_root : List Nat → Option (SerializableModule κ ι δ)

/-- `SerializableModule::serialize` (serialize.rs lines 55–63): serialize to
the archive bytes and return them.  The position trailer of the doc comment
("RKYV serialization (any length) + POS (8 bytes)") is computed (`_pos`) but
the `extend_from_slice` appending it is commented out, and no magic header is
added: the result is exactly the archive bytes. -/
def SerializableModule.serialize (c : RkyvCodec κ ι δ)
    (m : SerializableModule κ ι δ) : List Nat :=
  c.archive_bytes m

/-- `SerializableModule::archive_from_slice` (serialize.rs lines 85–103): the
whole input slice is interpreted as the archive root (the code stripping an
8-byte position trailer is commented out), composed here with
`deserialize_from_archive` (lines 106–112), whose failure is
`CorruptedBinary`.  This is `SerializableModule::deserialize` (lines 76–79). -/
def SerializableModule.deserialize (c : RkyvCodec κ ι δ)
    (metadata_slice : List Nat) :
    Except DeserializeError (SerializableModule κ ι δ) :=
  match c.archived_root metadata_slice with
  | some m => Except.ok m
  | none => Except.error (DeserializeError.corruptedBinary "archive")

/-! ## Concrete sample inputs, used by the witness theorems -/

/-- A function body with no unwind info. -/
def fbNone : FunctionBody := ⟨[1, 2, 3], none⟩

/-- A function body with non-inline (`dwarf`) unwind info. -/
def fbDwarf : FunctionBody := ⟨[4, 5], some CompiledFunctionUnwindInfo.dwarf⟩

/-- A function body with inline (`windowsX64`) unwind info. -/
def fbWin : FunctionBody :=
  ⟨[1, 2, 3], some (CompiledFunctionUnwindInfo.windowsX64 [9, 9])⟩

/-- A sample executable custom section of 5 bytes. -/
def csExec : CustomSection := ⟨[6, 7, 8, 6, 7]⟩

/-- A sample data custom section of 3 bytes. -/
def csData : CustomSection := ⟨[11, 12, 13]⟩

/-- A function whose code length does not fit in a `u32`. -/
def hugeFunc : FunctionBody :=
  ⟨List.replicate (2 ^ 32) 0, some CompiledFunctionUnwindInfo.dwarf⟩

/-- A sample function list for the registry theorems. -/
def regSample : List FunctionBody := [fbWin, fbNone, fbDwarf]

/-- A freshly allocated sample `CodeMemory`: one read-write page, 16
executable bytes. -/
def pubSample : CodeMemory := ⟨4096, 16, fun _ => Protection.readWrite⟩

/-- The protection of byte `i` after `publish`, when `publish` returns. -/
def pubProtAt (cm : CodeMemory) (i : Nat) : Option Protection :=
  (CodeMemory.publish cm).map (fun c => c.prot i)

/-- An `UnwindRegistry::register` that always fails. -/
def failingRegister : UnwindEntry → Except String Unit :=
  fun _ => Except.error "oom"

/-- Another always-failing `UnwindRegistry::register`. -/
def failingRegister2 : UnwindEntry → Except String Unit :=
  fun _ => Except.error "denied"

/-- A sample artifact whose frame info is not yet registered. -/
def artSample : UniversalArtifact := ⟨[4096, 4160], [10, 17], none, 0⟩

/-- A sample relocation scheme: every kind writes 4 little-endian bytes. -/
def sampleScheme : RelocScheme where
  width := fun _ => 4
  enc := fun _ a _ => [a % 256, a / 256 % 256, a / 2 ^ 16 % 256, a / 2 ^ 24 % 256]
  henc := fun _ _ _ => rfl

/-- A sample link environment: one function, one section, two libcall
trampolines of 16 bytes. -/
def sampleEnv : LinkEnv := ⟨[4096], [8192], 12288, 2, 16⟩

/-- A sample owning buffer of 8 bytes. -/
def sampleBytes : List Nat := List.replicate 8 7

/-- A relocation whose 4-byte write at offset 6 leaves the 8-byte buffer. -/
def relocOob : Relocation := ⟨6, RelocationTarget.localFunc 0, 0⟩

/-- A relocation whose target is an undefined function. -/
def relocUnresolved : Relocation := ⟨0, RelocationTarget.localFunc 5, 0⟩

/-- A concrete rkyv codec over `Nat` components: the archive is the fields in
order followed by the data initializers. -/
def sampleCodec : RkyvCodec Nat Nat Nat where
  archive_bytes := fun m =>
    m.compilation :: m.compile_info :: m.cpu_features :: m.data_initializers
  archived_root := fun l =>
    match l with
    | a :: b :: cf :: rest => some ⟨a, b, rest, cf⟩
    | _ => none

/-- A sample serializable module. -/
def sampleModule : SerializableModule Nat Nat Nat := ⟨1, 2, [3, 4], 5⟩

/-! ## Helper lemmas: `round_up` arithmetic -/

theorem round_up_eq_mul_div (size multiple : Nat) :
    round_up size multiple =
      multiple * ((size + (multiple - 1)) / multiple) := by
  unfold round_up
  have h := Nat.mod_add_div (size + (multiple - 1)) multiple
  omega

theorem dvd_round_up (size multiple : Nat) : multiple ∣ round_up size multiple := by
  rw [round_up_eq_mul_div]; exact Dvd.intro _ rfl

theorem le_round_up (size : Nat) {multiple : Nat} (h : 0 < multiple) :
    size ≤ round_up size multiple := by
  unfold round_up
  have h1 : (size + (multiple - 1)) % multiple < multiple := Nat.mod_lt _ h
  omega

theorem round_up_add_of_dvd {a multiple : Nat} (s : Nat) (h : multiple ∣ a) :
    round_up (a + s) multiple = a + round_up s multiple := by
  rcases h with ⟨k, rfl⟩
  unfold round_up
  rw [Nat.add_assoc, Nat.mul_add_mod]
  have h1 : (s + (multiple - 1)) % multiple ≤ s + (multiple - 1) :=
    Nat.mod_le _ _
  omega

/-! ## Helper lemmas: folds, offsets and chunks -/

theorem foldl_add_eq {α : Type} (g : α → Nat) :
    ∀ (l : List α) (a : Nat),
      l.foldl (fun acc x => acc + g x) a = a + (l.map g).sum
  | [], a => by simp
  | x :: xs, a => by
    simp only [List.foldl_cons, List.map_cons, List.sum_cons]
    rw [foldl_add_eq g xs (a + g x)]
    omega

theorem foldl_round_up_eq {α : Type} (g : α → Nat) (m : Nat) :
    ∀ (l : List α) (a : Nat), m ∣ a →
      l.foldl (fun acc x => round_up (acc + g x) m) a
        = a + (l.map (fun x => round_up (g x) m)).sum
  | [], a, _ => by simp
  | x :: xs, a, ha => by
    simp only [List.foldl_cons, List.map_cons, List.sum_cons]
    rw [round_up_add_of_dvd (g x) ha,
      foldl_round_up_eq g m xs (a + round_up (g x) m)
        (Dvd.dvd.add ha (dvd_round_up (g x) m))]
    omega

theorem start_of_nonexecutable_pages_eq (functions : List FunctionBody)
    (executable_sections : List CustomSection) :
    start_of_nonexecutable_pages functions executable_sections =
      (functions.map (fun f =>
        round_up (function_allocation_size f) ARCH_FUNCTION_ALIGNMENT)).sum
      + (executable_sections.map (fun e =>
          round_up e.bytes.length ARCH_FUNCTION_ALIGNMENT)).sum := by
  unfold start_of_nonexecutable_pages
  rw [foldl_add_eq, foldl_add_eq]
  omega

theorem seg_offsets_dvd (align : Nat) :
    ∀ (sizes : List Nat) (start : Nat), align ∣ start →
      ∀ o ∈ seg_offsets align sizes start, align ∣ o
  | [], _, _ => by simp [seg_offsets]
  | s :: rest, start, hstart => by
    intro o ho
    simp only [seg_offsets, List.mem_cons] at ho
    rcases ho with rfl | ho
    · exact hstart
    · exact seg_offsets_dvd align rest (start + round_up s align)
        (Dvd.dvd.add hstart (dvd_round_up s align)) o ho

/-! ## C2 — total region length -/

/-- C2: the total length computed by `CodeMemory::allocate` equals the sum of
each function's allocation size and each executable section's size, each
rounded up to the 16-byte function alignment, with that executable partition
then rounded up to the host page size, plus the sum of each data section's
size rounded up to the 64-byte data alignment; consequently the execute
boundary (`start_of_nonexecutable_pages`, the bytes covered by functions plus
executable sections) is at most the total region length. -/
theorem allocate_total_len_spec (page_size : Nat)
    (functions : List FunctionBody)
    (executable_sections data_sections : List CustomSection) :
    allocate_total_len page_size functions executable_sections data_sections =
      round_up
        ((functions.map (fun f =>
            round_up (function_allocation_size f) ARCH_FUNCTION_ALIGNMENT)).sum
          + (executable_sections.map (fun e =>
              round_up e.bytes.length ARCH_FUNCTION_ALIGNMENT)).sum)
        page_size
      + (data_sections.map (fun d =>
          round_up d.bytes.length DATA_SECTION_ALIGNMENT)).sum
    ∧ (0 < page_size →
        start_of_nonexecutable_pages functions executable_sections ≤
          allocate_total_len page_size functions executable_sections
            data_sections) := by
  have heq :
      allocate_total_len page_size functions executable_sections data_sections =
        round_up
          ((functions.map (fun f =>
              round_up (function_allocation_size f) ARCH_FUNCTION_ALIGNMENT)).sum
            + (executable_sections.map (fun e =>
                round_up e.bytes.length ARCH_FUNCTION_ALIGNMENT)).sum)
          page_size
        + (data_sections.map (fun d =>
            round_up d.bytes.length DATA_SECTION_ALIGNMENT)).sum := by
    unfold allocate_total_len
    rw [foldl_round_up_eq _ _ functions 0 (Dvd.intro 0 rfl),
      foldl_round_up_eq _ _ executable_sections 0 (Dvd.intro 0 rfl),
      foldl_round_up_eq _ _ data_sections 0 (Dvd.intro 0 rfl)]
    simp
  refine ⟨heq, fun hp => ?_⟩
  rw [heq, start_of_nonexecutable_pages_eq]
  exact Nat.le_trans (le_round_up _ hp) (Nat.le_add_right _ _)

/-- C2 witness: the spec's own scenario — function bodies of 10, 17 and 40
code bytes without unwind info, one executable section of 5 bytes, no data
sections, page size 4096 — gives a single-page region, and the boundary
(10→16, 17→32, 40→48, 5→16 summing to 112) is within it. -/
theorem allocate_total_len_spec_witness :
    allocate_total_len 4096
        [⟨List.replicate 10 1, none⟩, ⟨List.replicate 17 2, none⟩,
          ⟨List.replicate 40 3, none⟩] [csExec] [] = 4096
    ∧ start_of_nonexecutable_pages
        [⟨List.replicate 10 1, none⟩, ⟨List.replicate 17 2, none⟩,
          ⟨List.replicate 40 3, none⟩] [csExec] = 112
    ∧ start_of_nonexecutable_pages
        [⟨List.replicate 10 1, none⟩, ⟨List.replicate 17 2, none⟩,
          ⟨List.replicate 40 3, none⟩] [csExec]
      ≤ allocate_total_len 4096
          [⟨List.replicate 10 1, none⟩, ⟨List.replicate 17 2, none⟩,
            ⟨List.replicate 40 3, none⟩] [csExec] [] := by
  have h := allocate_total_len_spec 4096
    [⟨List.replicate 10 1, none⟩, ⟨List.replicate 17 2, none⟩,
      ⟨List.replicate 40 3, none⟩] [csExec] []
  refine ⟨?_, by decide, h.2 (by decide)⟩
  rw [h.1]
  decide

/-! ## C7 — function allocation size -/

/-- C7: a function body's allocation size equals its code length when it has
no unwind info or a variant not requiring inline storage (`dwarf`), and
equals `round_up(code_length, 4)` plus the unwind table's byte length exactly
when it carries the inline-storage (`windowsX64`) variant. -/
theorem function_allocation_size_spec (func : FunctionBody) :
    (func.unwind_info = none →
      function_allocation_size func = func.body.length)
    ∧ (func.unwind_info = some CompiledFunctionUnwindInfo.dwarf →
        function_allocation_size func = func.body.length)
    ∧ (∀ info,
        func.unwind_info = some (CompiledFunctionUnwindInfo.windowsX64 info) →
        function_allocation_size func =
          round_up func.body.length 4 + info.length) := by
  refine ⟨fun h => ?_, fun h => ?_, fun info h => ?_⟩
  · simp [function_allocation_size, h]
  · simp [function_allocation_size, h]
  · simp [function_allocation_size, h, round_up]

/-- C7 witness: the three sample function bodies. -/
theorem function_allocation_size_spec_witness :
    function_allocation_size fbNone = 3
    ∧ function_allocation_size fbDwarf = 2
    ∧ function_allocation_size fbWin = round_up 3 4 + 2 := by
  refine ⟨?_, ?_, ?_⟩
  · rw [(function_allocation_size_spec fbNone).1 rfl]; decide
  · rw [(function_allocation_size_spec fbDwarf).2.1 rfl]; decide
  · rw [(function_allocation_size_spec fbWin).2.2 [9, 9] rfl]; decide

/-! ## C3 — alignment of start offsets -/

/-- C3: after a successful `allocate`, every function body and executable
custom section starts at an offset that is a multiple of
`ARCH_FUNCTION_ALIGNMENT` (16), and every data custom section at an offset
that is a multiple of `DATA_SECTION_ALIGNMENT` (64).  The host page size is a
power of two no smaller than 64, captured by the divisibility hypothesis
(the source checks the same property with runtime `assert!`s on the actual
pointers). -/
theorem allocate_offsets_aligned (page_size : Nat)
    (functions : List FunctionBody)
    (executable_sections data_sections : List CustomSection)
    (h64 : DATA_SECTION_ALIGNMENT ∣ page_size) :
    (∀ o ∈ func_offsets functions, o % ARCH_FUNCTION_ALIGNMENT = 0)
    ∧ (∀ o ∈ exec_offsets functions executable_sections,
        o % ARCH_FUNCTION_ALIGNMENT = 0)
    ∧ (∀ o ∈ data_offsets page_size functions executable_sections data_sections,
        o % DATA_SECTION_ALIGNMENT = 0) := by
  refine ⟨fun o ho => ?_, fun o ho => ?_, fun o ho => ?_⟩
  · exact Nat.mod_eq_zero_of_dvd (seg_offsets_dvd _ _ 0 (Dvd.intro 0 rfl) o ho)
  · refine Nat.mod_eq_zero_of_dvd (seg_offsets_dvd _ _ _ ?_ o ho)
    rw [foldl_add_eq]
    exact Dvd.dvd.add (Dvd.intro 0 rfl)
      (List.dvd_sum (fun x hx => by
        obtain ⟨f, _, rfl⟩ := List.mem_map.mp hx
        exact dvd_round_up _ _))
  · exact Nat.mod_eq_zero_of_dvd
      (seg_offsets_dvd _ _ _ (Dvd.dvd.trans h64 (dvd_round_up _ _)) o ho)

/-- C3 witness: with functions `[fbWin, fbNone]`, sections `[csExec]`,
`[csData]` and page size 4096, the offsets handed out are 0 and 16 for the
functions, 32 for the executable section and 4096 for the data section; the
theorem instances confirm their alignment. -/
theorem allocate_offsets_aligned_witness :
    func_offsets [fbWin, fbNone] = [0, 16]
    ∧ exec_offsets [fbWin, fbNone] [csExec] = [32]
    ∧ data_offsets 4096 [fbWin, fbNone] [csExec] [csData] = [4096]
    ∧ 16 % ARCH_FUNCTION_ALIGNMENT = 0
    ∧ 32 % ARCH_FUNCTION_ALIGNMENT = 0
    ∧ 4096 % DATA_SECTION_ALIGNMENT = 0 := by
  have h := allocate_offsets_aligned 4096 [fbWin, fbNone] [csExec] [csData]
    (by decide)
  exact ⟨by decide, by decide, by decide,
    h.1 16 (by decide), h.2.1 32 (by decide), h.2.2 4096 (by decide)⟩

/-! ## C6 — the unwind registry after `allocate` -/

theorem func_entries_eq (base : Nat) :
    ∀ (l : List FunctionBody) (start : Nat),
      (∀ f ∈ l, f.body.length < 2 ^ 32) →
      func_entries base l start =
        ((seg_offsets ARCH_FUNCTION_ALIGNMENT
            (l.map function_allocation_size) start).zip l).filterMap
          (fun p => p.2.unwind_info.map (fun info =>
            UnwindEntry.mk (base + p.1) 0 p.2.body.length info))
  | [], _, _ => by simp [func_entries, seg_offsets]
  | f :: rest, start, h => by
    have hf : f.body.length % 2 ^ 32 = f.body.length :=
      Nat.mod_eq_of_lt (h f (by simp))
    have ih := func_entries_eq base rest
      (start + round_up (function_allocation_size f) ARCH_FUNCTION_ALIGNMENT)
      (fun g hg => h g (List.mem_cons_of_mem f hg))
    cases hinfo : f.unwind_info with
    | none =>
      simp [func_entries, seg_offsets, hinfo, ih, List.filterMap_cons]
    | some info =>
      simp [func_entries, seg_offsets, hinfo, ih, List.filterMap_cons, hf]
      exact h f (by simp)

theorem func_entries_length (base : Nat) :
    ∀ (l : List FunctionBody) (start : Nat),
      (func_entries base l start).length =
        (l.filter (fun f => f.unwind_info.isSome)).length
  | [], _ => by simp [func_entries]
  | f :: rest, start => by
    cases hinfo : f.unwind_info with
    | none =>
      simp [func_entries, hinfo, List.filter_cons,
        func_entries_length base rest]
    | some info =>
      simp [func_entries, hinfo, List.filter_cons,
        func_entries_length base rest]

/-- C6 counterexample: the claim fails as stated because
`CodeMemory::copy_function` registers `func_len as u32` — the code length
truncated to 32 bits.  A function of `2 ^ 32` code bytes (with unwind info)
is registered with length 0, not its code length. -/
theorem allocate_registry_truncation_cex :
    allocate_registry 0 [hugeFunc] =
      [UnwindEntry.mk 0 0 0 CompiledFunctionUnwindInfo.dwarf]
    ∧ hugeFunc.body.length = 2 ^ 32
    ∧ (0 : Nat) ≠ 2 ^ 32 := by
  have hb : hugeFunc.body.length = 2 ^ 32 := by
    rw [show hugeFunc.body = List.replicate (2 ^ 32) 0 from rfl,
      List.length_replicate]
  refine ⟨?_, hb, by decide⟩
  show func_entries 0 [hugeFunc] 0 = _
  simp only [func_entries, hb, Nat.mod_self]
  rw [show hugeFunc.unwind_info = some CompiledFunctionUnwindInfo.dwarf from rfl]
  rfl

/-- C6 (amended): after a successful `allocate` over functions whose code
lengths fit in a `u32`, the unwind registry holds exactly one entry per
function that declared unwind info, in order, each with address equal to the
function's final post-copy address (`base +` its offset) and length equal to
its code length in bytes, excluding appended unwind-table bytes and padding.
(In general the registered length is the code length truncated to 32 bits by
the `func_len as u32` cast.) -/
theorem allocate_registry_spec (base : Nat) (functions : List FunctionBody)
    (h : ∀ f ∈ functions, f.body.length < 2 ^ 32) :
    allocate_registry base functions =
      ((func_offsets functions).zip functions).filterMap
        (fun p => p.2.unwind_info.map (fun info =>
          UnwindEntry.mk (base + p.1) 0 p.2.body.length info))
    ∧ (allocate_registry base functions).length =
        (functions.filter (fun f => f.unwind_info.isSome)).length :=
  ⟨func_entries_eq base functions 0 h, func_entries_length base functions 0⟩

/-- C6 witness: for `[fbWin, fbNone, fbDwarf]` based at 4096, exactly the two
unwind-carrying functions are registered, at addresses 4096 + 0 and
4096 + 32, with their code lengths 3 and 2. -/
theorem allocate_registry_spec_witness :
    allocate_registry 4096 regSample =
      [UnwindEntry.mk 4096 0 3 (CompiledFunctionUnwindInfo.windowsX64 [9, 9]),
        UnwindEntry.mk 4128 0 2 CompiledFunctionUnwindInfo.dwarf]
    ∧ (allocate_registry 4096 regSample).length = 2 := by
  have h := allocate_registry_spec 4096 regSample (by decide)
  exact ⟨h.1.trans (by decide), h.2.trans (by decide)⟩

/-! ## C1 — `publish` frame effect -/

/-- C1: `publish` is a no-op when nothing was allocated (empty mapping) or
when the executable-partition length (`start_of_nonexecutable_pages`) is
zero; otherwise (on any state satisfying the source's
`assert!(mmap.len() >= start_of_nonexecutable_pages)`, which holds for every
state `allocate` produces) it succeeds and changes the protection of exactly
the byte range `[0, start_of_nonexecutable_pages)` to read+execute: every
byte at or beyond the boundary keeps its previous protection and in
particular is never made executable. -/
theorem publish_frame_effect (cm : CodeMemory) :
    (cm.mmap_len = 0 ∨ cm.start_of_nonexecutable_pages = 0 →
      CodeMemory.publish cm = some cm)
    ∧ (cm.start_of_nonexecutable_pages ≤ cm.mmap_len →
        (CodeMemory.publish cm).isSome = true)
    ∧ (∀ cm', CodeMemory.publish cm = some cm' →
        cm.mmap_len ≠ 0 → cm.start_of_nonexecutable_pages ≠ 0 →
        (∀ i, i < cm.start_of_nonexecutable_pages →
          cm'.prot i = Protection.readExecute)
        ∧ (∀ i, cm.start_of_nonexecutable_pages ≤ i → cm'.prot i = cm.prot i)
        ∧ (∀ i, cm.start_of_nonexecutable_pages ≤ i →
            cm.prot i ≠ Protection.readExecute →
            cm'.prot i ≠ Protection.readExecute)) := by
  refine ⟨fun h => ?_, fun h => ?_, fun cm' heq h1 h2 => ?_⟩
  · simp [CodeMemory.publish, h]
  · by_cases h0 : cm.mmap_len = 0 ∨ cm.start_of_nonexecutable_pages = 0
    · simp [CodeMemory.publish, h0]
    · simp [CodeMemory.publish, h0, h]
  · have h0 : ¬(cm.mmap_len = 0 ∨ cm.start_of_nonexecutable_pages = 0) := by
      tauto
    rw [CodeMemory.publish, if_neg h0] at heq
    by_cases hle : cm.start_of_nonexecutable_pages ≤ cm.mmap_len
    · rw [if_pos hle] at heq
      obtain rfl : _ = cm' := Option.some.inj heq
      refine ⟨fun i hi => ?_, fun i hi => ?_, fun i hi hne => ?_⟩
      · simp [hi]
      · simp [Nat.not_lt_of_le hi]
      · simp [Nat.not_lt_of_le hi]; exact hne
    · rw [if_neg hle] at heq
      exact absurd heq (by simp)

/-- C1 witness: a one-page sample region with a 16-byte executable
partition — after `publish`, byte 3 is read-execute and byte 100 still
read-write. -/
theorem publish_frame_effect_witness :
    pubProtAt pubSample 3 = some Protection.readExecute
    ∧ pubProtAt pubSample 100 = some Protection.readWrite := by
  have h := publish_frame_effect pubSample
  obtain ⟨cm', heq⟩ := Option.isSome_iff_exists.mp (h.2.1 (by decide))
  have h3 := h.2.2 cm' heq (by decide) (by decide)
  refine ⟨?_, ?_⟩
  · rw [pubProtAt, heq]
    simp [h3.1 3 (by decide)]
  · rw [pubProtAt, heq]
    simp [h3.2.1 100 (by decide), pubSample]

/-! ## C5 — a failed unwind registration -/

/-- C5 counterexample: the claim fails as stated — when
`UnwindRegistry::register` rejects a function's unwind info,
`CodeMemory::copy_function` hits
`.expect("failed to register unwind information")`, i.e. it panics (aborting
the thread/process) instead of returning an `UnwindRegistrationError`-like
error through the build's result (`RegOutcome.err`). -/
theorem unwind_register_failure_panics_cex :
    copy_function_register failingRegister 0 0 fbDwarf =
      RegOutcome.panicked "failed to register unwind information" := by
  rfl

/-- C5 (amended): when registering a function's unwind information fails
during the copy step, the failure is not silently ignored — but it is not
surfaced as an error through the build's result either: `copy_function`
panics with "failed to register unwind information", aborting instead of
returning. -/
theorem unwind_register_failure_aborts
    (register : UnwindEntry → Except String Unit) (base start : Nat)
    (func : FunctionBody) (info : CompiledFunctionUnwindInfo) (e : String)
    (hinfo : func.unwind_info = some info)
    (hreg : register
        ⟨base + start, 0, func.body.length % 2 ^ 32, info⟩ =
      Except.error e) :
    copy_function_register register base start func =
      RegOutcome.panicked "failed to register unwind information" := by
  simp only [copy_function_register, hinfo]
  rw [hreg]

/-- C5 witness: a registration refused with "denied" for the sample
`windowsX64` function panics. -/
theorem unwind_register_failure_aborts_witness :
    copy_function_register failingRegister2 4096 32 fbWin =
      RegOutcome.panicked "failed to register unwind information" :=
  unwind_register_failure_aborts failingRegister2 4096 32 fbWin
    (CompiledFunctionUnwindInfo.windowsX64 [9, 9]) "denied" rfl rfl

/-! ## C9 — idempotent frame-info registration -/

/-- C9: calling `register_frame_info` twice on a `UniversalArtifact` yields
the same observable state as calling it once, and when the slot starts empty
the function-extent mapping is computed exactly once — the second call
observes the stored registration in the guarded slot and returns without
recomputation. -/
theorem register_frame_info_idempotent (a : UniversalArtifact) :
    a.register_frame_info.register_frame_info = a.register_frame_info
    ∧ (a.frame_info_registration = none →
        a.register_frame_info.computations = a.computations + 1
        ∧ a.register_frame_info.register_frame_info.computations =
            a.computations + 1) := by
  cases h : a.frame_info_registration with
  | some r =>
    constructor
    · simp [UniversalArtifact.register_frame_info, h]
    · intro hn; exact absurd hn (by simp)
  | none =>
    have h1 : a.register_frame_info =
        { a with
          frame_info_registration :=
            register_frame_info_service
              (a.finished_functions.zip a.finished_function_lengths)
          computations := a.computations + 1 } := by
      simp [UniversalArtifact.register_frame_info, h]
    constructor
    · rw [h1]
      simp [UniversalArtifact.register_frame_info, register_frame_info_service]
    · intro _
      rw [h1]
      simp [UniversalArtifact.register_frame_info, register_frame_info_service]

/-- C9 witness: the sample artifact (two finished functions, empty slot) —
a second call changes nothing and the computation ran once. -/
theorem register_frame_info_idempotent_witness :
    artSample.register_frame_info.register_frame_info =
      artSample.register_frame_info
    ∧ artSample.register_frame_info.register_frame_info.computations = 1 := by
  have h := register_frame_info_idempotent artSample
  exact ⟨h.1, (h.2 rfl).2⟩

/-! ## C10 — serialization round trip -/

/-- C10: `SerializableModule::serialize` returns exactly the rkyv archive
bytes — no trailing 8-byte position field and no magic header is appended,
despite the doc comment's "RKYV serialization (any length) + POS (8 bytes)" —
and `deserialize` interprets the entire input slice as the archive root, so
`deserialize (serialize m)` succeeds and reconstructs `m` itself whenever the
rkyv codec round-trips `m`. -/
theorem serialize_roundtrip {κ ι δ : Type} (c : RkyvCodec κ ι δ)
    (m : SerializableModule κ ι δ)
    (hc : c.archived_root (c.archive_bytes m) = some m) :
    SerializableModule.serialize c m = c.archive_bytes m
    ∧ SerializableModule.deserialize c (SerializableModule.serialize c m) =
        Except.ok m := by
  refine ⟨rfl, ?_⟩
  rw [SerializableModule.deserialize, SerializableModule.serialize, hc]

/-- C10 witness: the sample codec and module — the serialized bytes are the
five archive bytes with nothing appended, and deserializing them returns the
module. -/
theorem serialize_roundtrip_witness :
    SerializableModule.serialize sampleCodec sampleModule = [1, 2, 5, 3, 4]
    ∧ SerializableModule.deserialize sampleCodec [1, 2, 5, 3, 4] =
        Except.ok sampleModule := by
  have h := serialize_roundtrip sampleCodec sampleModule rfl
  exact ⟨h.1.trans rfl, (congrArg _ (h.1.trans rfl).symm).symm.trans h.2⟩

/-! ## C8 — the region's bytes after the copy -/

theorem round_up_four (n : Nat) : round_up n 4 = (n + 3) - (n + 3) % 4 := rfl

theorem unwind_tail_length (func : FunctionBody) :
    func.body.length + (unwind_tail func).length =
      function_allocation_size func := by
  cases h : func.unwind_info with
  | none => simp [unwind_tail, function_allocation_size, h]
  | some info =>
    cases info with
    | dwarf => simp [unwind_tail, function_allocation_size, h]
    | windowsX64 i =>
      have hm : (func.body.length + 3) % 4 < 4 := Nat.mod_lt _ (by decide)
      simp [unwind_tail, function_allocation_size, h]
      omega

theorem funcChunk_length (func : FunctionBody) :
    (funcChunk func).length =
      round_up (function_allocation_size func) ARCH_FUNCTION_ALIGNMENT := by
  have h1 := unwind_tail_length func
  have h2 := le_round_up (function_allocation_size func)
    (show 0 < ARCH_FUNCTION_ALIGNMENT by decide)
  simp [funcChunk]
  omega

theorem execChunk_length (s : CustomSection) :
    (execChunk s).length =
      round_up s.bytes.length ARCH_FUNCTION_ALIGNMENT := by
  have h := le_round_up s.bytes.length
    (show 0 < ARCH_FUNCTION_ALIGNMENT by decide)
  simp [execChunk]
  omega

theorem dataChunk_length (s : CustomSection) :
    (dataChunk s).length =
      round_up s.bytes.length DATA_SECTION_ALIGNMENT := by
  have h := le_round_up s.bytes.length
    (show 0 < DATA_SECTION_ALIGNMENT by decide)
  simp [dataChunk]
  omega

theorem flatten_chunks_length {α : Type} (chunk : α → List Nat) (l : List α) :
    ((l.map chunk).flatten).length =
      (l.map (fun x => (chunk x).length)).sum := by
  rw [List.length_flatten, List.map_map]
  rfl

theorem funcFlatten_length (functions : List FunctionBody) :
    ((functions.map funcChunk).flatten).length =
      functions.foldl
        (fun bytes func =>
          bytes + round_up (function_allocation_size func) ARCH_FUNCTION_ALIGNMENT)
        0 := by
  rw [flatten_chunks_length, foldl_add_eq]
  simp [funcChunk_length]

theorem execFlatten_length (executable_sections : List CustomSection) :
    ((executable_sections.map execChunk).flatten).length =
      (executable_sections.map (fun e =>
        round_up e.bytes.length ARCH_FUNCTION_ALIGNMENT)).sum := by
  rw [flatten_chunks_length]
  simp [execChunk_length]

/-- The central layout lemma: walking chunk `p` of a chunk run that starts
right after a prefix `P` of length `start`, the region's bytes from that
chunk's offset on begin with the chunk itself. -/
theorem seg_offsets_drop {α : Type} (chunk : α → List Nat) (size : α → Nat)
    (align : Nat) (hc : ∀ x, (chunk x).length = round_up (size x) align) :
    ∀ (l : List α) (start : Nat) (P S : List Nat), P.length = start →
      ∀ p ∈ (seg_offsets align (l.map size) start).zip l,
        ∃ T, (P ++ (l.map chunk).flatten ++ S).drop p.1 = chunk p.2 ++ T
  | [], start, P, S, hP => by simp [seg_offsets]
  | x :: xs, start, P, S, hP => by
    intro p hp
    simp only [List.map_cons, seg_offsets, List.zip_cons_cons, List.mem_cons] at hp
    rcases hp with rfl | hp
    · subst hP
      refine ⟨(xs.map chunk).flatten ++ S, ?_⟩
      simp only [List.map_cons, List.flatten_cons, List.append_assoc]
      exact List.drop_left P _
    · obtain ⟨T, hT⟩ := seg_offsets_drop chunk size align hc xs
        (start + round_up (size x) align) (P ++ chunk x) S
        (by rw [List.length_append, hP, hc x]) p hp
      refine ⟨T, ?_⟩
      rw [← hT]
      simp [List.append_assoc]

/-- C8: for every function body, executable section and data section of a
successful `allocate`, the bytes stored at the item's final offset in the
region equal the original input bytes over the item's own length; and a
function with inline (`windowsX64`) unwind info has its unwind-table bytes
stored starting exactly `round_up(code_length, 4)` bytes after the function
start. -/
theorem allocate_region_roundtrip (page_size : Nat) (hpage : 0 < page_size)
    (functions : List FunctionBody)
    (executable_sections data_sections : List CustomSection) :
    (∀ p ∈ (func_offsets functions).zip functions,
      ((allocate_region page_size functions executable_sections
          data_sections).drop p.1).take p.2.body.length = p.2.body)
    ∧ (∀ p ∈ (func_offsets functions).zip functions, ∀ info,
        p.2.unwind_info = some (CompiledFunctionUnwindInfo.windowsX64 info) →
        ((allocate_region page_size functions executable_sections
            data_sections).drop
          (p.1 + round_up p.2.body.length 4)).take info.length = info)
    ∧ (∀ p ∈ (exec_offsets functions executable_sections).zip
          executable_sections,
        ((allocate_region page_size functions executable_sections
            data_sections).drop p.1).take p.2.bytes.length = p.2.bytes)
    ∧ (∀ p ∈ (data_offsets page_size functions executable_sections
          data_sections).zip data_sections,
        ((allocate_region page_size functions executable_sections
            data_sections).drop p.1).take p.2.bytes.length = p.2.bytes) := by
  set Ff := (functions.map funcChunk).flatten with hFf
  set Ee := (executable_sections.map execChunk).flatten with hEe
  have hregion : ∃ R, allocate_region page_size functions executable_sections
      data_sections = Ff ++ Ee ++ R := by
    rw [allocate_region]
    exact ⟨_, rfl⟩
  obtain ⟨R, hR⟩ := hregion
  have hfunc : ∀ p ∈ (func_offsets functions).zip functions,
      ∃ T, (allocate_region page_size functions executable_sections
        data_sections).drop p.1 = funcChunk p.2 ++ T := by
    intro p hp
    obtain ⟨T, hT⟩ := seg_offsets_drop funcChunk function_allocation_size
      ARCH_FUNCTION_ALIGNMENT funcChunk_length functions 0 [] (Ee ++ R) rfl p hp
    refine ⟨T, ?_⟩
    rw [hR]
    rw [← hT]
    simp [List.append_assoc]
  have hexec : ∀ p ∈ (exec_offsets functions executable_sections).zip
      executable_sections,
      ∃ T, (allocate_region page_size functions executable_sections
        data_sections).drop p.1 = execChunk p.2 ++ T := by
    intro p hp
    obtain ⟨T, hT⟩ := seg_offsets_drop execChunk (fun s => s.bytes.length)
      ARCH_FUNCTION_ALIGNMENT execChunk_length executable_sections _ Ff R
      (funcFlatten_length functions) p hp
    refine ⟨T, ?_⟩
    rw [hR, ← hT]
  refine ⟨?_, ?_, ?_, ?_⟩
  · intro p hp
    obtain ⟨T, hT⟩ := hfunc p hp
    rw [hT, funcChunk, List.append_assoc, List.append_assoc]
    exact List.take_left _ _
  · intro p hp info hinfo
    obtain ⟨T, hT⟩ := hfunc p hp
    have hpad : p.2.body.length ≤ round_up p.2.body.length 4 :=
      le_round_up _ (by decide)
    have hchunk : funcChunk p.2 ++ T =
        (p.2.body ++ List.replicate
            (round_up p.2.body.length 4 - p.2.body.length) 0)
          ++ (info ++ (List.replicate
              (round_up (function_allocation_size p.2) ARCH_FUNCTION_ALIGNMENT
                - function_allocation_size p.2) 0 ++ T)) := by
      rw [funcChunk, unwind_tail, hinfo, round_up_four]
      simp [List.append_assoc]
    have hlen : (p.2.body ++ List.replicate
        (round_up p.2.body.length 4 - p.2.body.length) 0).length =
        round_up p.2.body.length 4 := by
      simp
      omega
    rw [← List.drop_drop, hT, hchunk, List.drop_left' hlen]
    exact List.take_left _ _
  · intro p hp
    obtain ⟨T, hT⟩ := hexec p hp
    rw [hT, execChunk, List.append_assoc]
    exact List.take_left _ _
  · intro p hp
    have hne : data_sections.isEmpty = false := by
      cases data_sections with
      | nil => simp [data_offsets, seg_offsets, List.zip_nil_right] at hp
      | cons d ds => rfl
    have hB := start_of_nonexecutable_pages_eq functions executable_sections
    have hBle : start_of_nonexecutable_pages functions executable_sections ≤
        round_up (start_of_nonexecutable_pages functions executable_sections)
          page_size :=
      le_round_up _ hpage
    have hPlen : (Ff ++ Ee ++ List.replicate
        (round_up (start_of_nonexecutable_pages functions executable_sections)
            page_size
          - start_of_nonexecutable_pages functions executable_sections)
        0).length =
        round_up (start_of_nonexecutable_pages functions executable_sections)
          page_size := by
      simp only [List.length_append, List.length_replicate]
      rw [hFf, hEe, funcFlatten_length, execFlatten_length]
      have hfold : functions.foldl (fun bytes func => bytes +
            round_up (function_allocation_size func) ARCH_FUNCTION_ALIGNMENT) 0
          = (functions.map (fun f =>
              round_up (function_allocation_size f)
                ARCH_FUNCTION_ALIGNMENT)).sum := by
        rw [foldl_add_eq]
        omega
      omega
    obtain ⟨T, hT⟩ := seg_offsets_drop dataChunk (fun s => s.bytes.length)
      DATA_SECTION_ALIGNMENT dataChunk_length data_sections
      (round_up (start_of_nonexecutable_pages functions executable_sections)
        page_size)
      (Ff ++ Ee ++ List.replicate
        (round_up (start_of_nonexecutable_pages functions executable_sections)
            page_size
          - start_of_nonexecutable_pages functions executable_sections) 0)
      [] hPlen p hp
    have hreg2 : allocate_region page_size functions executable_sections
        data_sections =
        (Ff ++ Ee ++ List.replicate
          (round_up (start_of_nonexecutable_pages functions
              executable_sections) page_size
            - start_of_nonexecutable_pages functions executable_sections) 0)
        ++ (data_sections.map dataChunk).flatten ++ [] := by
      rw [allocate_region, hne]
      simp [List.append_assoc]
    rw [hreg2, hT, dataChunk, List.append_assoc]
    exact List.take_left _ _

/-- C8 witness: one `windowsX64` function (body `[1,2,3]`, unwind `[9,9]`),
one executable section and one data section, page size 64: the body is at
offset 0, the unwind bytes at `round_up 3 4 = 4`, the executable section at
16 and the data section at the page boundary 64, each reading back as the
input bytes. -/
theorem allocate_region_roundtrip_witness :
    ((allocate_region 64 [fbWin] [csExec] [csData]).drop 0).take 3 = [1, 2, 3]
    ∧ ((allocate_region 64 [fbWin] [csExec] [csData]).drop
        (0 + round_up 3 4)).take 2 = [9, 9]
    ∧ ((allocate_region 64 [fbWin] [csExec] [csData]).drop 16).take 5 =
        [6, 7, 8, 6, 7]
    ∧ ((allocate_region 64 [fbWin] [csExec] [csData]).drop 64).take 3 =
        [11, 12, 13] := by
  have h := allocate_region_roundtrip 64 (by decide) [fbWin] [csExec] [csData]
  refine ⟨?_, ?_, ?_, ?_⟩
  · have hx := h.1 (0, fbWin) (by decide)
    simpa [fbWin] using hx
  · have hx := h.2.1 (0, fbWin) (by decide) [9, 9] rfl
    simpa [fbWin] using hx
  · have hx := h.2.2.1 (16, csExec) (by decide)
    simpa [csExec] using hx
  · have hx := h.2.2.2 (64, csData) (by decide)
    simpa [csData] using hx

/-! ## C4 — malformed relocations are rejected without writing -/

theorem write_bytes_length (buf : List Nat) (offset : Nat) (v : List Nat)
    (h : offset + v.length ≤ buf.length) :
    (write_bytes buf offset v).length = buf.length := by
  simp [write_bytes]
  omega

theorem write_bytes_frame (buf : List Nat) (offset : Nat) (v : List Nat)
    (h : offset + v.length ≤ buf.length) :
    ∀ i, i < offset ∨ offset + v.length ≤ i →
      (write_bytes buf offset v)[i]? = buf[i]? := by
  intro i hi
  have htl : (buf.take offset).length = offset := by
    simp
    omega
  have htv : (buf.take offset ++ v).length = offset + v.length := by
    rw [List.length_append, htl]
  rw [write_bytes, List.getElem?_append, htv]
  rcases hi with hi | hi
  · rw [if_pos (by omega), List.getElem?_append, htl, if_pos hi,
      List.getElem?_take, if_pos hi]
  · rw [if_neg (by omega), List.getElem?_drop]
    congr 1
    omega

theorem apply_relocation_ok (s : RelocScheme) (env : LinkEnv)
    (bytes : List Nat) (r : Relocation) (b : List Nat)
    (h : apply_relocation s env bytes r = Except.ok b) :
    env.resolve r.target ≠ none
    ∧ r.offset + s.width r.kind ≤ bytes.length
    ∧ b.length = bytes.length := by
  rw [apply_relocation] at h
  split at h
  · exact absurd h (by simp)
  · rename_i addr hres
    split at h
    · rename_i hle
      obtain rfl : _ = b := Except.ok.inj h
      have hv : (s.enc r.kind addr r.offset).length = s.width r.kind :=
        s.henc r.kind addr r.offset
      exact ⟨by simp [hres], hle,
        write_bytes_length bytes r.offset _ (by rw [hv]; exact hle)⟩
    · exact absurd h (by simp)

theorem link_relocations_error (s : RelocScheme) (env : LinkEnv) :
    ∀ (rs : List Relocation) (bytes : List Nat) (r : Relocation),
      r ∈ rs → bad_relocation s env bytes.length r →
      ∃ e, link_relocations s env bytes rs = Except.error e
  | [], _, _, hmem, _ => absurd hmem (List.not_mem_nil _)
  | r0 :: rest, bytes, r, hmem, hbad => by
    rw [link_relocations]
    cases happ : apply_relocation s env bytes r0 with
    | error e => exact ⟨e, rfl⟩
    | ok b =>
      rcases List.mem_cons.mp hmem with rfl | hmem2
      · exfalso
        obtain ⟨hres, hle, _⟩ := apply_relocation_ok s env bytes r b happ
        rcases hbad with hb | hb
        · omega
        · exact hres hb
      · obtain ⟨_, _, hlen⟩ := apply_relocation_ok s env bytes r0 b happ
        have hbad2 : bad_relocation s env b.length r := by
          rw [bad_relocation, hlen]
          exact hbad
        exact link_relocations_error s env rest b r hmem2 hbad2

/-- C4 counterexample: the claim, as stated, fails on the visible build
code.  At the concrete out-of-bounds relocation `relocOob` the link step
returns a `LinkError`, yet `from_build`'s link step — which invokes
`link_module(...)` as a bare statement and discards its outcome
(artifact.rs lines 120–128) — contributes `Ok` to the build's result: the
`LinkError` is not surfaced as a `CompileError` by the build. -/
theorem link_error_not_surfaced_cex :
    link_relocations sampleScheme sampleEnv sampleBytes [relocOob] =
      Except.error (LinkError.outOfBounds 6 4 8)
    ∧ from_build_link_step
        (link_relocations sampleScheme sampleEnv sampleBytes [relocOob]) =
      Except.ok () :=
  ⟨rfl, rfl⟩

/-- C4 (amended): for every relocation whose offset plus the width of the
required write lies outside the owning body or section's byte length, or
whose target does not resolve to a defined function, section or libcall
trampoline, the link step returns a `LinkError` rather than crashing: the
failing relocation performs no write (the error carries no modified buffer,
so the owning bytes are unchanged), a successful relocation writes only
inside the owned buffer (length preserved, bytes outside
`[offset, offset + width)` untouched), and linking an entire relocation list
that contains a malformed relocation returns a `LinkError`.  That
`LinkError` is however not surfaced as a `CompileError` by the build:
`from_build` discards `link_module`'s outcome, so its link step contributes
`Ok` to the build's result whatever linking produced. -/
theorem link_bad_relocation_rejected (s : RelocScheme) (env : LinkEnv)
    (bytes : List Nat) (r : Relocation) :
    (env.resolve r.target = none →
      apply_relocation s env bytes r =
        Except.error (LinkError.unresolvedTarget r.target))
    ∧ (bytes.length < r.offset + s.width r.kind →
        env.resolve r.target ≠ none →
        apply_relocation s env bytes r =
          Except.error
            (LinkError.outOfBounds r.offset (s.width r.kind) bytes.length))
    ∧ (∀ b, apply_relocation s env bytes r = Except.ok b →
        b.length = bytes.length
        ∧ ∀ i, i < r.offset ∨ r.offset + s.width r.kind ≤ i →
            b[i]? = bytes[i]?)
    ∧ (∀ rs, r ∈ rs → bad_relocation s env bytes.length r →
        ∃ e, link_relocations s env bytes rs = Except.error e)
    ∧ (∀ rs, from_build_link_step (link_relocations s env bytes rs) =
        Except.ok ()) := by
  refine ⟨fun h => ?_, fun hlt hres => ?_, fun b hb => ?_,
    fun rs hmem hbad => link_relocations_error s env rs bytes r hmem hbad,
    fun rs => by cases link_relocations s env bytes rs <;> rfl⟩
  · simp [apply_relocation, h]
  · rw [apply_relocation]
    split
    · rename_i hr; exact absurd hr hres
    · rw [if_neg (by omega)]
  · obtain ⟨hres, hle, hlen⟩ := apply_relocation_ok s env bytes r b hb
    refine ⟨hlen, fun i hi => ?_⟩
    rw [apply_relocation] at hb
    split at hb
    · exact absurd hb (by simp)
    · rename_i addr hr
      split at hb
      · obtain rfl : _ = b := Except.ok.inj hb
        have hv : (s.enc r.kind addr r.offset).length = s.width r.kind :=
          s.henc r.kind addr r.offset
        exact write_bytes_frame bytes r.offset _ (by omega) i (by omega)
      · rename_i hnle
        exact absurd hle hnle

/-- C4 witness: on an 8-byte section, a relocation writing 4 bytes at offset
6 yields the out-of-bounds `LinkError`, and a relocation targeting undefined
function 5 yields the unresolved-target `LinkError`; a valid relocation at
offset 0 keeps the buffer length; and the build's link step contributes `Ok`
even when linking the unresolved relocation errored. -/
theorem link_bad_relocation_rejected_witness :
    apply_relocation sampleScheme sampleEnv sampleBytes relocOob =
      Except.error (LinkError.outOfBounds 6 4 8)
    ∧ apply_relocation sampleScheme sampleEnv sampleBytes relocUnresolved =
        Except.error (LinkError.unresolvedTarget (RelocationTarget.localFunc 5))
    ∧ (write_bytes sampleBytes 0
        (sampleScheme.enc 0 4096 0)).length = sampleBytes.length
    ∧ from_build_link_step
        (link_relocations sampleScheme sampleEnv sampleBytes
          [relocUnresolved]) = Except.ok () := by
  refine ⟨?_, ?_, ?_, ?_⟩
  · exact (link_bad_relocation_rejected sampleScheme sampleEnv sampleBytes
      relocOob).2.1 (by decide) (by decide)
  · exact (link_bad_relocation_rejected sampleScheme sampleEnv sampleBytes
      relocUnresolved).1 (by decide)
  · exact ((link_bad_relocation_rejected sampleScheme sampleEnv sampleBytes
      ⟨0, RelocationTarget.localFunc 0, 0⟩).2.2.1 _ rfl).1
  · exact (link_bad_relocation_rejected sampleScheme sampleEnv sampleBytes
      relocUnresolved).2.2.2.2 [relocUnresolved]

end Wasmer
